import Mathlib

/-!
Verification of the curve/session data model and signal-analysis engine of the
Sysam SP5 acquisition program (src/SysamSP5Acquisition.py).

Numeric arrays of the Python code (numpy float arrays) are modelled as lists of
rationals; exact rational arithmetic stands in for IEEE floating point.
Python strings are modelled as lists of characters.
-/

namespace Latis

/-- Binary maximum on the rationals. -/
def qmax (a b : ℚ) : ℚ := if a ≤ b then b else a

/-- Binary minimum on the rationals. -/
def qmin (a b : ℚ) : ℚ := if b ≤ a then b else a

/-- Minimum of a list, as computed by np.min. np.min raises on an empty array;
the 0 default is never reached at the call sites below. -/
def listMin : List ℚ → ℚ
  | [] => 0
  | x :: xs => xs.foldl qmin x

/-- Maximum of a list, as computed by np.max. -/
def listMax : List ℚ → ℚ
  | [] => 0
  | x :: xs => xs.foldl qmax x

/-- np.diff: successive differences. -/
def diffsQ (l : List ℚ) : List ℚ :=
  List.zipWith (fun a b => b - a) l l.tail

/-- np.mean: arithmetic mean (0 on the empty list, where numpy returns nan). -/
def meanQ (l : List ℚ) : ℚ :=
  l.sum / l.length

/-- Population variance: mean of squared deviations.  The source computes
np.std, the square root of this quantity; the square root is irrational in
general, so the development tracks the variance (the square of np.std). -/
def varQ (l : List ℚ) : ℚ :=
  meanQ (l.map (fun x => (x - meanQ l) ^ 2))

/-- Insertion of an element into a sorted list (stable: an element is placed
before later elements that compare equal). -/
def insertSorted (x : ℚ) : List ℚ → List ℚ
  | [] => [x]
  | y :: ys => if x ≤ y then x :: y :: ys else y :: insertSorted x ys

/-- Sorting a list of rationals (value-equivalent to the sort inside
np.median). -/
def sortQ (l : List ℚ) : List ℚ := l.foldr insertSorted []

/-- np.median: middle element of the sorted list, or the mean of the two
middle elements for even length (0 on the empty list, unreachable below). -/
def medianQ (l : List ℚ) : ℚ :=
  let s := sortQ l
  let n := s.length
  if n % 2 = 1 then s.getD (n / 2) 0
  else (s.getD (n / 2 - 1) 0 + s.getD (n / 2) 0) / 2

/-- The upward mean-crossing times of `_compute_period_from_peaks`
(the fallback stage): for every adjacent pair with v[i] < mean and
v[i+1] >= mean, the crossing time obtained by linear interpolation,
with the t[i] fallback of the source when the denominator is zero. -/
def crossingTimes (t v : List ℚ) : List ℚ :=
  let mean_v := meanQ v
  ((List.range (v.length - 1)).filter (fun i =>
      decide (v.getD i 0 < mean_v) && decide (mean_v ≤ v.getD (i + 1) 0))).map
    (fun i =>
      let dv := v.getD (i + 1) 0 - v.getD i 0
      if dv = 0 then t.getD i 0
      else t.getD i 0 + ((mean_v - v.getD i 0) / dv) * (t.getD (i + 1) 0 - t.getD i 0))

/-- The crossing times with the dead zero-denominator branch removed:
the interpolation formula is applied unconditionally. -/
def crossingTimesInterp (t v : List ℚ) : List ℚ :=
  let mean_v := meanQ v
  ((List.range (v.length - 1)).filter (fun i =>
      decide (v.getD i 0 < mean_v) && decide (mean_v ≤ v.getD (i + 1) 0))).map
    (fun i =>
      let dv := v.getD (i + 1) 0 - v.getD i 0
      t.getD i 0 + ((mean_v - v.getD i 0) / dv) * (t.getD (i + 1) 0 - t.getD i 0))

/-- The denominators v[i+1] - v[i] of the interpolation, one per detected
crossing pair. -/
def crossingDenoms (v : List ℚ) : List ℚ :=
  let mean_v := meanQ v
  ((List.range (v.length - 1)).filter (fun i =>
      decide (v.getD i 0 < mean_v) && decide (mean_v ≤ v.getD (i + 1) 0))).map
    (fun i => v.getD (i + 1) 0 - v.getD i 0)

/-- `_compute_period_from_peaks`: period estimation by local maxima with a
mean-crossing fallback.  Returns (period_mean, period_variance, peak_times);
the source returns np.std, whose square is the variance returned here. -/
def compute_period_from_peaks (t v : List ℚ) :
    Option ℚ × Option ℚ × List ℚ :=
  if t.length < 3 then (none, none, [])
  else
    let vmin := listMin v
    let vmax := listMax v
    let amplitude := vmax - vmin
    if amplitude = 0 then (none, none, [])
    else
      let threshold := vmin + (1 / 5) * amplitude
      let peaks_idx := (List.range' 1 (v.length - 2)).filter (fun i =>
        decide (v.getD (i - 1) 0 < v.getD i 0) &&
        decide (v.getD (i + 1) 0 < v.getD i 0) &&
        decide (threshold ≤ v.getD i 0))
      let peak_times₀ := peaks_idx.map (fun i => t.getD i 0)
      let peak_times :=
        if peak_times₀.length < 2 then crossingTimes t v else peak_times₀
      if peak_times.length < 2 then (none, none, [])
      else
        let diffs := diffsQ peak_times
        let med := medianQ diffs
        if med ≤ 0 then (none, none, peak_times)
        else
          let diffs_good := diffs.filter (fun d => decide (d < 10 * med))
          if diffs_good.length = 0 then (none, none, peak_times)
          else (some (meanQ diffs_good), some (varQ diffs_good), peak_times)

/-! ## Python string helpers

Python strings are modelled as lists of characters.  The helpers below embed
the string methods used by the source: split on a character, replace of a
single character by the empty string, strip, lower, and substring
containment. -/

/-- Python str.split(sep) for a one-character separator: splits on every
occurrence, keeping empty pieces; the result is never the empty list. -/
def pySplit (sep : Char) : List Char → List (List Char)
  | [] => [[]]
  | c :: rest =>
    match pySplit sep rest with
    | [] => [[]]
    | h :: hs => if c = sep then [] :: h :: hs else (c :: h) :: hs

/-- Python str.replace(old, new-empty-string) for a one-character pattern:
removes every occurrence. -/
def pyRemoveChar (old : Char) (s : List Char) : List Char :=
  s.filter (fun c => c ≠ old)

/-- The whitespace characters removed by Python str.strip(). -/
def isPySpace (c : Char) : Bool :=
  c = ' ' || c = '\t' || c = '\n' || c = '\r' || c = '\x0b' || c = '\x0c'

/-- Python str.strip(). -/
def pyStrip (s : List Char) : List Char :=
  ((s.dropWhile isPySpace).reverse.dropWhile isPySpace).reverse

/-- Python str.lower() on one character.  Besides the ASCII range, the only
uppercase characters that can reach the lower() call of the source are the
accented French capitals of curve names; no lowered accented character can
occur in the searched marker "derive", so further Unicode cases are
irrelevant to the comparison results. -/
def pyLowerChar (c : Char) : Char :=
  if c = 'É' then 'é' else if c = 'È' then 'è' else if c = 'Ê' then 'ê' else c.toLower

/-- Python str.lower(). -/
def pyLower (s : List Char) : List Char := s.map pyLowerChar

/-- Whether `pat` occurs at the head of `s`. -/
def matchesAt (pat s : List Char) : Bool :=
  match pat, s with
  | [], _ => true
  | _ :: _, [] => false
  | p :: ps, c :: cs => p = c && matchesAt ps cs

/-- Python substring containment: `pat in s`. -/
def containsSub (pat : List Char) (s : List Char) : Bool :=
  match s with
  | [] => matchesAt pat []
  | _ :: rest => matchesAt pat s || containsSub pat rest

/-- `_extract_unit_from_name`: text between the last opening parenthesis and
the end, with all closing parentheses removed and surrounding whitespace
stripped; None when the name is empty or has no parenthesis pair. -/
def extract_unit_from_name (name : List Char) : Option (List Char) :=
  if name = [] || !name.contains '(' || !name.contains ')' then none
  else some (pyStrip (pyRemoveChar ')' ((pySplit '(' name).getLastD [])))

/-- The truthiness test Python applies to an optional unit string: a unit
counts only when present and non-empty. -/
def unitTruthy : Option (List Char) → Bool
  | none => false
  | some u => !u.isEmpty

/-- The unit-difference disjunct of the secondary-axis test:
`unit and primary_unit and unit != primary_unit`. -/
def unitsDiffer (u pu : Option (List Char)) : Bool :=
  match u, pu with
  | some a, some b => !a.isEmpty && !b.isEmpty && a ≠ b
  | _, _ => false

/-- The derivative-marker disjunct of the secondary-axis test:
`'Dérivée' in nom or 'dérivée' in nom or 'derive' in nom.lower()`. -/
def hasDerivMarker (nom : List Char) : Bool :=
  containsSub "Dérivée".toList nom || containsSub "dérivée".toList nom ||
    containsSub "derive".toList (pyLower nom)

/-- The secondary-axis classification of `plot_mode_unique` (the identical
test also appears in `auto_calibrate_plot`): the curve at index `i` of the
name list is put on the secondary axis. -/
def secondaryAt (names : List (List Char)) (i : ℕ) : Bool :=
  i ≠ 0 &&
    (unitsDiffer (extract_unit_from_name (names.getD i []))
        (extract_unit_from_name (names.getD 0 [])) ||
      hasDerivMarker (names.getD i []))

/-! ## Curves and automatic measurements -/

/-- A curve, the informal 4-tuple `(time, values, name, is_raw)` of the
source. -/
structure Curve where
  time : List ℚ
  values : List ℚ
  name : List Char
  is_raw : Bool
deriving DecidableEq

instance : Inhabited Curve := ⟨⟨[], [], [], true⟩⟩

/-- The errors raised by `measure_on_curve`: the empty-curve RuntimeError and
the too-few-points-in-window RuntimeError. -/
inductive MeasureError where
  | noTimeData
  | windowTooFewPoints
deriving DecidableEq

/-- The measurement record built by `measure_on_curve`.  `T_var_s2` is the
square of the `T_std_s` of the source (np.std); the variance is tracked
because the square root is irrational in general. -/
structure Measurements where
  T_mean_s : Option ℚ
  T_var_s2 : Option ℚ
  f_Hz : Option ℚ
  v_min : ℚ
  v_max : ℚ
  n_peaks : ℕ
  peak_times : List ℚ
deriving DecidableEq

/-- The boolean window mask over the time array: start all true, and-in
`t0 <= x` when t0 is given and `x <= t1` when t1 is given. -/
def window_mask (t : List ℚ) (t0 t1 : Option ℚ) : List Bool :=
  t.map (fun x => t0.all (fun a => decide (a ≤ x)) && t1.all (fun b => decide (x ≤ b)))

/-- numpy boolean-mask indexing `arr[mask]`. -/
def applyMask {α : Type} (l : List α) (mask : List Bool) : List α :=
  (l.zip mask).filterMap (fun p => if p.2 then some p.1 else none)

/-- `measure_on_curve` on one curve given by its time and value arrays, with
the optional time window.  The windowed branch is entered exactly when t0 or
t1 is given, as in the source. -/
def measure_on_curve (t v : List ℚ) (t0 t1 : Option ℚ) :
    Except MeasureError Measurements :=
  if t.length = 0 then .error .noTimeData
  else
    let windowed := t0.isSome || t1.isSome
    let mask := window_mask t t0 t1
    if windowed ∧ mask.count true < 2 then .error .windowTooFewPoints
    else
      let tw := if windowed then applyMask t mask else t
      let vw := if windowed then applyMask v mask else v
      let vmin := listMin vw
      let vmax := listMax vw
      let r := compute_period_from_peaks tw vw
      let frequency : Option ℚ :=
        match r.1 with
        | some p => if 0 < p then some (1 / p) else none
        | none => none
      .ok { T_mean_s := r.1, T_var_s2 := r.2.1, f_Hz := frequency,
            v_min := vmin, v_max := vmax,
            n_peaks := r.2.2.length, peak_times := r.2.2 }

/-! ## Numerical derivative -/

/-- `get_units_for_model`: the y unit parsed from the trailing parenthesis of
the name (default "U.A."), paired with the fixed x unit "s". -/
def get_units_for_model (name : List Char) : List Char × List Char :=
  let unite_y :=
    if name.contains '(' && name.contains ')' then
      pyStrip (pyRemoveChar ')' ((pySplit '(' name).getLastD []))
    else "U.A.".toList
  (unite_y, "s".toList)

/-- The display name built for a derivative curve:
`Dérivée d(base)/dt (unit_y/unit_x)` with base the stripped text before the
first parenthesis. -/
def derivName (base_name : List Char) : List Char :=
  let u := get_units_for_model base_name
  "Dérivée d(".toList ++ pyStrip ((pySplit '(' base_name).headD []) ++ ")/dt (".toList ++
    u.1 ++ "/".toList ++ u.2 ++ ")".toList

/-- The midpoints `(t[:-1] + t[1:]) / 2`. -/
def midpoints (t : List ℚ) : List ℚ :=
  List.zipWith (fun a b => (a + b) / 2) t t.tail

/-- `calculer_derivee` on one curve: None models the too-short warning branch
(the source shows a message and leaves the curve set unchanged); otherwise the
derived curve `np.diff(v)/np.diff(t)` at midpoint timestamps is produced, a
non-raw curve. -/
def calculer_derivee (c : Curve) : Option Curve :=
  if c.time.length < 2 then none
  else some
    { time := midpoints c.time
      values := List.zipWith (fun dv dt => dv / dt) (diffsQ c.values) (diffsQ c.time)
      name := derivName c.name
      is_raw := false }

/-! ## View state: calibration history and the curve set of one tab -/

/-- np.abs on one rational. -/
def qabs (a : ℚ) : ℚ := if a < 0 then -a else a

/-- Axis extents of one view: the x limits and the y limits. -/
structure Extents where
  x : ℚ × ℚ
  y : ℚ × ℚ
deriving DecidableEq

/-- The per-tab state of the source: the curve list with its parallel
visibility and color arrays, the trash of removed curves, the three extent
records (initial, previous, current), and the optional secondary axis with
its y limits. -/
structure WindowState where
  curves : List Curve
  visibleFlags : List Bool
  curveColors : List (Option (List Char))
  removedCurves : List Curve
  initE : Extents
  prevE : Extents
  curE : Extents
  secE : Option (ℚ × ℚ)
deriving DecidableEq

/-- The names of the curves of a window. -/
def curveNames (w : WindowState) : List (List Char) :=
  w.curves.map Curve.name

/-- The skip test of the drawing and auto-fit loops:
`visible_flags and i < len(visible_flags) and not visible_flags[i]`. -/
def visibleHidden (flags : List Bool) (i : ℕ) : Bool :=
  !flags.isEmpty && decide (i < flags.length) && !(flags.getD i true)

/-- `_sync_visible_flags`: pad with True on growth, truncate on shrink. -/
def sync_visible_flags (curves : List Curve) (flags : List Bool) : List Bool :=
  let n := curves.length
  if flags.length < n then flags ++ List.replicate (n - flags.length) true
  else flags.take n

/-- `_sync_curve_colors`: pad with None on growth, truncate on shrink. -/
def sync_curve_colors (curves : List Curve) (colors : List (Option (List Char))) :
    List (Option (List Char)) :=
  let n := curves.length
  if colors.length < n then colors ++ List.replicate (n - colors.length) none
  else colors.take n

/-- The indices put on the secondary axis by `plot_mode_unique`. -/
def secondaryIndices (w : WindowState) : List ℕ :=
  (List.range w.curves.length).filter (fun i => secondaryAt (curveNames w) i)

/-- `de_calibrate_plot`: restore the previous extents; when they already
equal the initial extents and so does the display, only a message is shown;
when they equal the initial extents but the display deviates, fall back to
the initial extents.  Afterwards the previous extents are set to the initial
extents. -/
def de_calibrate_plot (w : WindowState) : WindowState :=
  let p := w.prevE
  if p = w.initE then
    if w.curE = w.initE then w
    else { w with curE := w.initE, prevE := w.initE }
  else { w with curE := p, prevE := w.initE }

/-- The state effect of `plot_mode_unique`: the old secondary axis is
removed, the parallel arrays are synchronized, the current extents are
snapshot into the previous extents when they deviate from the initial
extents, the display is redrawn at unchanged current extents, and a fresh
secondary axis (matplotlib default limits 0..1) is created exactly when some
curve classifies as secondary. -/
def plot_mode_unique (w : WindowState) : WindowState :=
  let w1 := { w with secE := none,
                     visibleFlags := sync_visible_flags w.curves w.visibleFlags,
                     curveColors := sync_curve_colors w.curves w.curveColors }
  let w2 := if w1.curE ≠ w1.initE then { w1 with prevE := w1.curE } else w1
  { w2 with secE := if (secondaryIndices w2).isEmpty then none else some (0, 1) }

/-- The indices actually passed to ax.plot by the drawing loop of
`plot_mode_unique`: visible curves, where raw curves additionally need
non-empty time and value arrays. -/
def drawn_indices (w : WindowState) : List ℕ :=
  let flags := sync_visible_flags w.curves w.visibleFlags
  (List.range w.curves.length).filter (fun i =>
    !visibleHidden flags i &&
      (let c := w.curves.getD i default
       !c.is_raw || (!c.time.isEmpty && !c.values.isEmpty)))

/-- The value arrays feeding the primary y auto-fit: visible, not secondary,
non-empty. -/
def mainValueArrays (w : WindowState) : List (List ℚ) :=
  ((List.range w.curves.length).filter (fun i =>
      !visibleHidden w.visibleFlags i && !secondaryAt (curveNames w) i &&
        !((w.curves.getD i default).values.isEmpty))).map
    (fun i => (w.curves.getD i default).values)

/-- The value arrays feeding the secondary y auto-fit: visible, secondary,
non-empty. -/
def secValueArrays (w : WindowState) : List (List ℚ) :=
  ((List.range w.curves.length).filter (fun i =>
      !visibleHidden w.visibleFlags i && secondaryAt (curveNames w) i &&
        !((w.curves.getD i default).values.isEmpty))).map
    (fun i => (w.curves.getD i default).values)

/-- The zero-range y padding of the source:
`v - abs(v)*0.1 if v != 0 else -1` and the symmetric upper version. -/
def degenerateLow (v : ℚ) : ℚ := if v ≠ 0 then v - qabs v * (10 / 100) else -1

/-- Upper counterpart of `degenerateLow`. -/
def degenerateHigh (v : ℚ) : ℚ := if v ≠ 0 then v + qabs v * (10 / 100) else 1

/-- The 10%-padded y extent over a non-empty list of value arrays. -/
def paddedYLim (arrays : List (List ℚ)) : ℚ × ℚ :=
  let all_v := arrays.flatten
  let v_min := listMin all_v
  let v_max := listMax all_v
  let v_range := v_max - v_min
  if 0 < v_range then
    (v_min - v_range * (10 / 100), v_max + v_range * (10 / 100))
  else (degenerateLow v_min, degenerateHigh v_max)

/-- `auto_calibrate_plot`: snapshot the current extents into the previous
extents, then recompute both axes from the data.  The boolean of the result
records whether the np.concatenate call raised (ValueError on an all-empty
non-empty curve list); the state mutations made before the raise persist, as
they do on the Python dictionary. -/
def auto_calibrate_plot (w : WindowState) : WindowState × Bool :=
  let w := { w with prevE := w.curE }
  if w.curves.isEmpty then ({ w with curE := w.initE }, false)
  else
    let tLists := (w.curves.map Curve.time).filter (fun l => !l.isEmpty)
    if tLists.isEmpty then (w, true)
    else
      let all_t := tLists.flatten
      let xlim :=
        if !all_t.isEmpty then
          let t_min := listMin all_t
          let t_max := listMax all_t
          let t_range := t_max - t_min
          if 0 < t_range then
            let margin_x := t_range * (5 / 100)
            let x_min := t_min - margin_x
            let x_max := t_max + margin_x
            if x_max ≤ x_min then (t_min - 1 / 1000, t_max + 1 / 1000)
            else (x_min, x_max)
          else (t_min - 1 / 1000, t_max + 1 / 1000)
        else w.initE.x
      let ylim :=
        let main_vs := mainValueArrays w
        if !main_vs.isEmpty then paddedYLim main_vs else w.initE.y
      let secE :=
        match w.secE with
        | none => none
        | some s =>
          let sec_vs := secValueArrays w
          if !sec_vs.isEmpty then some (paddedYLim sec_vs) else some s
      ({ w with curE := ⟨xlim, ylim⟩, secE := secE }, false)

/-! ## Curve set mutations -/

/-- `remove_curve`: pop the curve at idx into the trash, pop the parallel
arrays where the index is in range, and redraw.  An out-of-range index
raises inside the try block before any mutation; the handler shows a message
and the state is unchanged. -/
def remove_curve (w : WindowState) (idx : ℕ) : WindowState :=
  if h : idx < w.curves.length then
    plot_mode_unique
      { w with curves := w.curves.eraseIdx idx
               visibleFlags :=
                 if idx < w.visibleFlags.length then w.visibleFlags.eraseIdx idx
                 else w.visibleFlags
               curveColors :=
                 if idx < w.curveColors.length then w.curveColors.eraseIdx idx
                 else w.curveColors
               removedCurves := w.removedCurves ++ [w.curves.get ⟨idx, h⟩] }
  else w

/-- `restore_curve`: pop the curve at the given trash index, append it to the
curve list, synchronize the parallel arrays and redraw; an out-of-range
index returns unchanged. -/
def restore_curve (w : WindowState) (ridx : ℕ) : WindowState :=
  if h : ridx < w.removedCurves.length then
    let c := w.removedCurves.get ⟨ridx, h⟩
    let w1 := { w with removedCurves := w.removedCurves.eraseIdx ridx
                       curves := w.curves ++ [c] }
    plot_mode_unique
      { w1 with visibleFlags := sync_visible_flags w1.curves w1.visibleFlags
                curveColors := sync_curve_colors w1.curves w1.curveColors }
  else w

/-- The append-then-redraw pattern shared by the derivative, the four model
fits and the .ltp single-curve import. -/
def append_curve_and_plot (w : WindowState) (c : Curve) : WindowState :=
  plot_mode_unique { w with curves := w.curves ++ [c] }

/-- The normal-mode acquisition (and the CSV open dialog): clear the curve
list unless superposition is requested, append the new curve, redraw. -/
def acquire_normal (w : WindowState) (c : Curve) (superposition : Bool) : WindowState :=
  plot_mode_unique { w with curves := (if superposition then w.curves else []) ++ [c] }

/-- The .ltp import: append every decoded curve, then redraw; when no curve
was decoded the function returns before redrawing. -/
def import_ltp_curves (w : WindowState) (cs : List Curve) : WindowState :=
  if cs.isEmpty then w
  else plot_mode_unique { w with curves := w.curves ++ cs }

/-- The length-synchronization invariant of the parallel arrays. -/
def SyncInvariant (w : WindowState) : Prop :=
  w.visibleFlags.length = w.curves.length ∧ w.curveColors.length = w.curves.length

/-! ## Fourier spectrum

The spectrum uses the cosine window, the complex exponential and the complex
modulus, so this part of the embedding lives over the real numbers and is not
executable; the claims about it are settled by equational reasoning. -/

/-- np.mean over the reals. -/
noncomputable def meanR (l : List ℝ) : ℝ := l.sum / l.length

/-- np.diff over the reals. -/
def diffsR (l : List ℝ) : List ℝ :=
  List.zipWith (fun a b => b - a) l l.tail

open Classical in
/-- Stable insertion of a (time, value) pair into a list sorted by time. -/
noncomputable def insertByTime (x : ℝ × ℝ) : List (ℝ × ℝ) → List (ℝ × ℝ)
  | [] => [x]
  | y :: ys => if x.1 ≤ y.1 then x :: y :: ys else y :: insertByTime x ys

/-- The joint sort of time and value arrays by time performed through
np.argsort: pairs sorted by the time component. -/
noncomputable def sortedByTime (t v : List ℝ) : List ℝ × List ℝ :=
  let sorted := (t.zip v).foldr insertByTime []
  (sorted.map Prod.fst, sorted.map Prod.snd)

/-- np.hanning: the symmetric raised-cosine window
`0.5 - 0.5*cos(2*pi*n/(M-1))` for n = 0..M-1 (a single 1 for M = 1). -/
noncomputable def hanning (M : ℕ) : List ℝ :=
  if M = 1 then [1]
  else (List.range M).map (fun n => 1 / 2 - 1 / 2 * Real.cos (2 * Real.pi * n / ((M : ℝ) - 1)))

/-- np.fft.rfft: the one-sided discrete Fourier transform, terms k = 0..N/2
of `sum over n of x[n] * exp(-2*pi*i*k*n/N)`. -/
noncomputable def rfft (x : List ℝ) : List ℂ :=
  let N := x.length
  (List.range (N / 2 + 1)).map (fun k =>
    ∑ n ∈ Finset.range N,
      (x.getD n 0 : ℂ) * Complex.exp (-(2 * Real.pi * Complex.I * k * n / N)))

/-- np.fft.rfftfreq: the one-sided frequency ladder k/(d*N) for k = 0..N/2. -/
noncomputable def rfftfreq (N : ℕ) (d : ℝ) : List ℝ :=
  (List.range (N / 2 + 1)).map (fun k : ℕ => (k : ℝ) / (d * N))

open Classical in
/-- `compute_fft_for_curve`: single-sided FFT amplitude and frequency
vector.  Fewer than 2 samples give empty arrays; time and value arrays are
sorted by time when some successive time difference is nonpositive; the
windowed, mean-removed transform is normalized by 2/sum(window). -/
noncomputable def compute_fft_for_curve (t v : List ℝ) : List ℝ × List ℝ :=
  if t.length < 2 then ([], [])
  else
    let dt0 := diffsR t
    let tv := if dt0.any (fun d => decide (d ≤ 0)) then sortedByTime t v else (t, v)
    let dt := diffsR tv.1
    let fe := 1 / meanR dt
    let N := tv.2.length
    let v0 := tv.2.map (fun x => x - meanR tv.2)
    let window := hanning N
    let vw := List.zipWith (· * ·) v0 window
    let Vf := rfft vw
    let amplitude := Vf.map (fun z => 2 / window.sum * Complex.abs z)
    let freqs := rfftfreq N (1 / fe)
    (freqs, amplitude)

open Classical in
/-- Modelled from the claim wording for the spectrum operation: sort both
arrays by time when the time samples are not strictly increasing, take the
effective sample rate 1/mean(successive differences), return the one-sided
DFT frequency ladder k*fe/N together with amplitudes
(2/sum(window)) * |one-sided DFT of (v - mean(v)) * window| with the Hann
window of the segment length, and empty arrays for fewer than 2 samples. -/
noncomputable def spectrumSpec (t v : List ℝ) : List ℝ × List ℝ :=
  if t.length < 2 then ([], [])
  else
    let tv := if List.Chain' (· < ·) t then (t, v) else sortedByTime t v
    let fe := 1 / meanR (diffsR tv.1)
    let N := tv.2.length
    let window := hanning N
    let freqs := (List.range (N / 2 + 1)).map (fun k : ℕ => (k : ℝ) * fe / N)
    let amps := (rfft (List.zipWith (· * ·)
        (tv.2.map (fun x => x - meanR tv.2)) window)).map
      (fun z => 2 / window.sum * Complex.abs z)
    (freqs, amps)

/-! ## Specification-side definitions and concrete states used by the
claims -/

/-- Modelled from the claim wording for period estimation: peaks are the
interior indices i with v[i] > v[i-1], v[i] > v[i+1] and
v[i] >= min(v) + 0.2*amplitude; with fewer than 2 peaks the upward
mean-crossing times replace them; differences at least 10 times their median
are discarded; mean and variance (squared standard deviation) of the
survivors give the period; with fewer than 2 timestamps, or when every
difference was discarded, the period is undetermined while the timestamps
are still reported. -/
def periodClaimSpec (t v : List ℚ) : Option ℚ × Option ℚ × List ℚ :=
  let amplitude := listMax v - listMin v
  if amplitude = 0 then (none, none, [])
  else
    let threshold := listMin v + (1 / 5) * amplitude
    let peaks := ((List.range' 1 (v.length - 2)).filter (fun i =>
        decide (v.getD (i - 1) 0 < v.getD i 0) &&
        decide (v.getD (i + 1) 0 < v.getD i 0) &&
        decide (threshold ≤ v.getD i 0))).map (fun i => t.getD i 0)
    let stamps := if peaks.length < 2 then crossingTimes t v else peaks
    if stamps.length < 2 then (none, none, stamps)
    else
      let ds := diffsQ stamps
      let med := medianQ ds
      let surviving := ds.filter (fun d => !decide (10 * med ≤ d))
      if surviving.length = 0 then (none, none, stamps)
      else (some (meanQ surviving), some (varQ surviving), stamps)

/-- Modelled from the amended claim wording for period estimation: as
`periodClaimSpec`, except that with fewer than 2 timestamps the period is
undetermined with an EMPTY reported list, and a nonpositive median
difference also gives an undetermined period (with the timestamps
reported). -/
def periodAmendedSpec (t v : List ℚ) : Option ℚ × Option ℚ × List ℚ :=
  let amplitude := listMax v - listMin v
  if amplitude = 0 then (none, none, [])
  else
    let threshold := listMin v + (1 / 5) * amplitude
    let peaks := ((List.range' 1 (v.length - 2)).filter (fun i =>
        decide (v.getD (i - 1) 0 < v.getD i 0) &&
        decide (v.getD (i + 1) 0 < v.getD i 0) &&
        decide (threshold ≤ v.getD i 0))).map (fun i => t.getD i 0)
    let stamps := if peaks.length < 2 then crossingTimes t v else peaks
    if stamps.length < 2 then (none, none, [])
    else
      let ds := diffsQ stamps
      let med := medianQ ds
      if med ≤ 0 then (none, none, stamps)
      else
        let surviving := ds.filter (fun d => !decide (10 * med ≤ d))
        if surviving.length = 0 then (none, none, stamps)
        else (some (meanQ surviving), some (varQ surviving), stamps)

/-- A concrete view state whose previous extents differ from both the
initial and the current extents. -/
def wExample : WindowState :=
  { curves := [], visibleFlags := [], curveColors := [], removedCurves := []
    initE := ⟨(0, 1), (0, 1)⟩, prevE := ⟨(4, 5), (4, 5)⟩, curE := ⟨(2, 3), (2, 3)⟩
    secE := none }

/-- A concrete view state whose only curve is empty. -/
def wAllEmpty : WindowState :=
  { curves := [⟨[], [], "U (V)".toList, true⟩], visibleFlags := [true]
    curveColors := [none], removedCurves := []
    initE := ⟨(0, 1), (0, 1)⟩, prevE := ⟨(0, 1), (0, 1)⟩, curE := ⟨(0, 1), (0, 1)⟩
    secE := none }

/-! ## Helper lemmas -/

lemma sync_visible_flags_length (cs : List Curve) (fl : List Bool) :
    (sync_visible_flags cs fl).length = cs.length := by
  unfold sync_visible_flags
  by_cases h : fl.length < cs.length
  · simp only [if_pos h, List.length_append, List.length_replicate]
    omega
  · simp only [if_neg h, List.length_take]
    omega

lemma sync_curve_colors_length (cs : List Curve) (cc : List (Option (List Char))) :
    (sync_curve_colors cs cc).length = cs.length := by
  unfold sync_curve_colors
  by_cases h : cc.length < cs.length
  · simp only [if_pos h, List.length_append, List.length_replicate]
    omega
  · simp only [if_neg h, List.length_take]
    omega

lemma plot_mode_unique_curves (w : WindowState) :
    (plot_mode_unique w).curves = w.curves := by
  unfold plot_mode_unique
  by_cases h : w.curE ≠ w.initE <;> simp [h]

lemma plot_mode_unique_sync (w : WindowState) : SyncInvariant (plot_mode_unique w) := by
  unfold plot_mode_unique SyncInvariant
  by_cases h : w.curE ≠ w.initE <;>
    simp [h, sync_visible_flags_length, sync_curve_colors_length]

lemma de_calibrate_plot_prevE (w : WindowState) :
    (de_calibrate_plot w).prevE = w.initE := by
  unfold de_calibrate_plot
  by_cases h1 : w.prevE = w.initE
  · by_cases h2 : w.curE = w.initE <;> simp [h1, h2]
  · simp [h1]

lemma de_calibrate_plot_initE (w : WindowState) :
    (de_calibrate_plot w).initE = w.initE := by
  unfold de_calibrate_plot
  by_cases h1 : w.prevE = w.initE
  · by_cases h2 : w.curE = w.initE <;> simp [h1, h2]
  · simp [h1]

lemma diffsQ_getD (l : List ℚ) (i : ℕ) (h : i + 1 < l.length) :
    (diffsQ l).getD i 0 = l.getD (i + 1) 0 - l.getD i 0 := by
  have hlen : i < (diffsQ l).length := by
    simp only [diffsQ, List.length_zipWith, List.length_tail]
    omega
  rw [List.getD_eq_getElem _ _ hlen]
  unfold diffsQ
  rw [List.getElem_zipWith, List.getElem_tail]
  rw [List.getD_eq_getElem _ _ h, List.getD_eq_getElem _ _ (by omega : i < l.length)]

lemma midpoints_getD (l : List ℚ) (i : ℕ) (h : i + 1 < l.length) :
    (midpoints l).getD i 0 = (l.getD i 0 + l.getD (i + 1) 0) / 2 := by
  have hlen : i < (midpoints l).length := by
    simp only [midpoints, List.length_zipWith, List.length_tail]
    omega
  rw [List.getD_eq_getElem _ _ hlen]
  unfold midpoints
  rw [List.getElem_zipWith, List.getElem_tail]
  rw [List.getD_eq_getElem _ _ h, List.getD_eq_getElem _ _ (by omega : i < l.length)]

lemma crossingTimes_length_le (t v : List ℚ) :
    (crossingTimes t v).length ≤ v.length - 1 := by
  simp only [crossingTimes, List.length_map]
  calc (List.filter _ (List.range (v.length - 1))).length
      ≤ (List.range (v.length - 1)).length := List.length_filter_le _ _
    _ = v.length - 1 := List.length_range _

lemma any_nonpos_diff_iff (t : List ℝ) :
    (diffsR t).any (fun d => decide (d ≤ 0)) = true ↔ ¬ List.Chain' (· < ·) t := by
  induction t with
  | nil => simp [diffsR]
  | cons a t ih =>
    cases t with
    | nil => simp [diffsR]
    | cons b t2 =>
      rw [List.chain'_cons]
      have hd : diffsR (a :: b :: t2) = (b - a) :: diffsR (b :: t2) := rfl
      rw [hd, List.any_cons]
      simp only [Bool.or_eq_true, decide_eq_true_eq]
      rw [ih]
      constructor
      · rintro (h | h)
        · rintro ⟨hab, -⟩
          linarith
        · rintro ⟨-, hch⟩
          exact h hch
      · intro h
        by_cases hab : a < b
        · exact Or.inr (fun hch => h ⟨hab, hch⟩)
        · exact Or.inl (by linarith [not_lt.mp hab])

lemma freq_ladder (N : ℕ) (fe : ℝ) :
    rfftfreq N (1 / fe) =
      (List.range (N / 2 + 1)).map (fun k : ℕ => (k : ℝ) * fe / N) := by
  unfold rfftfreq
  have hfun : (fun k : ℕ => (k : ℝ) / (1 / fe * N)) = fun k : ℕ => (k : ℝ) * fe / N := by
    funext k
    rcases eq_or_ne fe 0 with h | h
    · simp [h]
    · rcases eq_or_ne (N : ℝ) 0 with hN | hN
      · simp [hN]
      · field_simp
  rw [hfun]

/-! ## Claim theorems -/

/-- C10: whenever adjacent samples trigger a crossing (v[i] below the mean
and v[i+1] at or above it), the interpolation denominator v[i+1] - v[i] is
strictly positive, so the division is well defined and the zero-denominator
branch of the source is unreachable: removing it does not change the
computed crossing times. -/
theorem crossing_interpolation_always_defined :
    (∀ v : List ℚ, (crossingDenoms v).all (fun d => decide (0 < d)) = true) ∧
      ∀ t v : List ℚ, crossingTimes t v = crossingTimesInterp t v := by
  constructor
  · intro v
    rw [List.all_eq_true]
    intro d hd
    simp only [crossingDenoms, List.mem_map, List.mem_filter, Bool.and_eq_true,
      decide_eq_true_eq] at hd
    obtain ⟨i, ⟨-, hlt, hle⟩, rfl⟩ := hd
    simp only [decide_eq_true_eq]
    linarith
  · intro t v
    simp only [crossingTimes, crossingTimesInterp]
    apply List.map_congr_left
    intro i hi
    simp only [List.mem_filter, Bool.and_eq_true, decide_eq_true_eq] at hi
    have hdv : v.getD (i + 1) 0 - v.getD i 0 ≠ 0 := by
      have h := lt_of_lt_of_le hi.2.1 hi.2.2
      exact sub_ne_zero.mpr (ne_of_gt h)
    rw [if_neg hdv]

/-- C2 counterexample: in a state whose previous extents differ from the
initial extents, both the revert operation and the re-plot operation change
the stored previous extents, refuting the claim that only auto-fit does. -/
theorem de_calibrate_updates_previous_extents :
    (de_calibrate_plot wExample).prevE ≠ wExample.prevE ∧
      (plot_mode_unique wExample).prevE ≠ wExample.prevE := by
  constructor
  · simp only [de_calibrate_plot, wExample]
    norm_num [Extents.mk.injEq, Prod.mk.injEq]
  · simp only [plot_mode_unique, wExample]
    norm_num [Extents.mk.injEq, Prod.mk.injEq]

/-- C2 amended: previous_extents is updated by all three view operations:
de-calibrate always resets it to the initial extents, re-plot overwrites it
with the current extents whenever the display deviates from the initial
extents, and auto-fit snapshots the current extents into it. -/
theorem previous_extents_updaters (w : WindowState) :
    (de_calibrate_plot w).prevE = w.initE ∧
      (plot_mode_unique w).prevE = (if w.curE = w.initE then w.prevE else w.curE) ∧
      (auto_calibrate_plot w).1.prevE = w.curE := by
  refine ⟨de_calibrate_plot_prevE w, ?_, ?_⟩
  · unfold plot_mode_unique
    by_cases h : w.curE = w.initE <;> simp [h]
  · unfold auto_calibrate_plot
    by_cases h1 : w.curves.isEmpty <;>
      by_cases h2 : ((w.curves.map Curve.time).filter (fun l => !l.isEmpty)).isEmpty <;>
      simp [h1, h2]

/-- C1 counterexample: starting from a state whose previous extents differ
from both the initial and current extents, the first de-calibrate call
restores the previous extents (4, 5) and the second call changes the
display again, to the initial extents (0, 1): the second call is not a
no-op. -/
theorem de_calibrate_second_call_changes_display :
    (de_calibrate_plot wExample).curE = ⟨(4, 5), (4, 5)⟩ ∧
      (de_calibrate_plot (de_calibrate_plot wExample)).curE = ⟨(0, 1), (0, 1)⟩ ∧
      (de_calibrate_plot (de_calibrate_plot wExample)).curE ≠
        (de_calibrate_plot wExample).curE := by
  simp only [de_calibrate_plot, wExample]
  norm_num [Extents.mk.injEq, Prod.mk.injEq]

/-- C1 amended: after one de-calibrate call the previous extents equal the
initial extents, so a second call leaves previous_extents unchanged; the
second call leaves the display unchanged exactly when it already equals the
initial extents, and otherwise resets the display to the initial extents, a
third call then being a no-op. -/
theorem de_calibrate_second_call (w : WindowState) :
    (de_calibrate_plot (de_calibrate_plot w)).prevE = (de_calibrate_plot w).prevE ∧
      de_calibrate_plot (de_calibrate_plot w) =
        (if (de_calibrate_plot w).curE = w.initE then de_calibrate_plot w
          else { de_calibrate_plot w with curE := w.initE }) ∧
      de_calibrate_plot (de_calibrate_plot (de_calibrate_plot w)) =
        de_calibrate_plot (de_calibrate_plot w) := by
  obtain ⟨cs, fl, cc, rm, iE, pE, cE, sE⟩ := w
  by_cases h1 : pE = iE
  · by_cases h2 : cE = iE <;> simp [de_calibrate_plot, h1, h2]
  · simp [de_calibrate_plot, h1]

/-- C3 counterexample: a one-sample curve measured with no time window does
not raise; it returns a measurement record with undetermined period, so the
claimed equivalence of failure with fewer than 2 samples is false. -/
theorem measure_one_point_no_window_returns :
    measure_on_curve [0] [1] none none = .ok ⟨none, none, none, 1, 1, 0, []⟩ := rfl

/-- C3 amended: measure fails exactly when the curve is empty, or when a
time window was given and fewer than 2 samples remain inside it; in
particular a one-sample curve with no window returns a result whose extrema
are the sample and whose period is undetermined. -/
theorem measure_insufficient_data_condition :
    (∀ (t v : List ℚ) (t0 t1 : Option ℚ),
        (measure_on_curve t v t0 t1).isOk = false ↔
          t = [] ∨ ((t0.isSome ∨ t1.isSome) ∧ (window_mask t t0 t1).count true < 2)) ∧
      ∀ a b : ℚ, measure_on_curve [a] [b] none none = .ok ⟨none, none, none, b, b, 0, []⟩ := by
  constructor
  · intro t v t0 t1
    unfold measure_on_curve
    by_cases h0 : t.length = 0
    · simp [h0, List.length_eq_zero.mp h0, Except.isOk, Except.toBool]
    · have hne : t ≠ [] := by
        intro hx
        rw [hx] at h0
        exact h0 rfl
      by_cases hw : (t0.isSome = true ∨ t1.isSome = true) ∧
          (window_mask t t0 t1).count true < 2
      · simp [h0, hw, Except.isOk, Except.toBool, hne]
      · simp [h0, hw, Except.isOk, Except.toBool, hne]
  · intro a b
    rfl

/-- C9 counterexample: a non-empty curve set whose every curve is empty
makes auto-fit raise (np.concatenate of an empty list), and measurement of
an empty curve raises instead of completing as a no-op. -/
theorem all_empty_curves_raise :
    (auto_calibrate_plot wAllEmpty).2 = true ∧
      measure_on_curve ([] : List ℚ) [] none none = .error .noTimeData :=
  ⟨rfl, rfl⟩

/-- C9 amended: auto-fit raises exactly on a non-empty curve set whose
every curve has an empty time array (otherwise empty curves are skipped and
it completes); measurement of an empty curve raises; the rendering loop
never draws a raw curve with empty time or value arrays. -/
theorem empty_curves_skipped :
    (∀ w : WindowState,
        (auto_calibrate_plot w).2 = true ↔ w.curves ≠ [] ∧ ∀ c ∈ w.curves, c.time = []) ∧
      (∀ t0 t1 : Option ℚ, measure_on_curve [] [] t0 t1 = .error .noTimeData) ∧
      ∀ w : WindowState,
        (drawn_indices w).all (fun i =>
          !(w.curves.getD i default).is_raw ||
            (!(w.curves.getD i default).time.isEmpty &&
              !(w.curves.getD i default).values.isEmpty)) = true := by
  refine ⟨?_, fun t0 t1 => rfl, ?_⟩
  · intro w
    have hiff : ((w.curves.map Curve.time).filter (fun l => !l.isEmpty)).isEmpty = true ↔
        ∀ c ∈ w.curves, c.time = [] := by
      simp [List.isEmpty_iff, List.filter_eq_nil_iff]
    unfold auto_calibrate_plot
    by_cases h1 : w.curves.isEmpty
    · simp [h1, List.isEmpty_iff.mp h1]
    · have hne : w.curves ≠ [] := by
        intro hx
        rw [hx] at h1
        exact h1 rfl
      by_cases h2 : ((w.curves.map Curve.time).filter (fun l => !l.isEmpty)).isEmpty
      · simp [h1, h2, hne]
        exact hiff.mp h2
      · simp only [h1, h2, Bool.false_eq_true, if_false, if_true]
        constructor
        · intro hx
          cases hx
        · rintro ⟨-, hall⟩
          exact absurd (hiff.mpr hall) h2
  · intro w
    rw [List.all_eq_true]
    intro i hi
    simp only [drawn_indices, List.mem_filter, Bool.and_eq_true] at hi
    exact hi.2.2

/-- C8: every curve-set mutation (remove, restore, append-and-redraw,
clear-then-acquire, import) leaves the visibility and color arrays with the
same length as the curve list. -/
theorem curve_set_mutations_keep_sync (w : WindowState) (hw : SyncInvariant w)
    (idx ridx : ℕ) (c : Curve) (cs : List Curve) (sup : Bool) :
    SyncInvariant (remove_curve w idx) ∧ SyncInvariant (restore_curve w ridx) ∧
      SyncInvariant (append_curve_and_plot w c) ∧
      SyncInvariant (acquire_normal w c sup) ∧
      SyncInvariant (import_ltp_curves w cs) := by
  refine ⟨?_, ?_, plot_mode_unique_sync _, plot_mode_unique_sync _, ?_⟩
  · unfold remove_curve
    split
    · exact plot_mode_unique_sync _
    · exact hw
  · unfold restore_curve
    split
    · exact plot_mode_unique_sync _
    · exact hw
  · unfold import_ltp_curves
    split
    · exact hw
    · exact plot_mode_unique_sync _

/-- C8 witness: the invariant holds on a concrete state and is preserved by
a concrete removal. -/
theorem curve_set_mutations_keep_sync_witness :
    SyncInvariant wAllEmpty ∧ SyncInvariant (remove_curve wAllEmpty 0) :=
  ⟨⟨rfl, rfl⟩,
    (curve_set_mutations_keep_sync wAllEmpty ⟨rfl, rfl⟩ 0 0 default [] false).1⟩

/-- C5: a curve at index i > 0 is secondary exactly when its parsed unit
and the primary unit are both present and non-empty and differ as strings,
or its name contains one of the derivative markers; the named examples
classify as the claim states, and a curve with no parsable unit and no
marker is always primary. -/
theorem secondary_axis_classification :
    (∀ (names : List (List Char)) (i : ℕ),
        secondaryAt names i = true ↔
          i ≠ 0 ∧
            ((∃ u pu, extract_unit_from_name (names.getD i []) = some u ∧ u ≠ [] ∧
                extract_unit_from_name (names.getD 0 []) = some pu ∧ pu ≠ [] ∧ u ≠ pu) ∨
              hasDerivMarker (names.getD i []) = true)) ∧
      secondaryAt ["U (V)".toList, "I (A)".toList] 1 = true ∧
      (secondaryAt ["U (V)".toList, "U2 (V)".toList] 1 = false ∧
        secondaryAt ["U (V)".toList, "U2 (V)".toList] 0 = false) ∧
      ∀ (names : List (List Char)) (i : ℕ),
        extract_unit_from_name (names.getD i []) = none →
          hasDerivMarker (names.getD i []) = false → secondaryAt names i = false := by
  refine ⟨?_, by decide, ⟨by decide, by decide⟩, ?_⟩
  · intro names i
    unfold secondaryAt
    cases hu : extract_unit_from_name (names.getD i []) with
    | none =>
      simp [unitsDiffer, hu]
    | some u =>
      cases hp : extract_unit_from_name (names.getD 0 []) with
      | none => simp [unitsDiffer, hu, hp]
      | some pu =>
        simp only [unitsDiffer, Bool.and_eq_true, Bool.or_eq_true, decide_eq_true_eq,
          Bool.not_eq_true', List.isEmpty_eq_false, Option.some.injEq, ne_eq]
        constructor
        · rintro ⟨hi, hrest⟩
          refine ⟨hi, ?_⟩
          rcases hrest with ⟨⟨hu1, hp1⟩, hne⟩ | hm
          · exact Or.inl ⟨u, pu, rfl, hu1, rfl, hp1, hne⟩
          · exact Or.inr hm
        · rintro ⟨hi, hrest⟩
          refine ⟨hi, ?_⟩
          rcases hrest with ⟨u', pu', hu', hu1, hp', hp1, hne⟩ | hm
          · cases hu'
            cases hp'
            exact Or.inl ⟨⟨hu1, hp1⟩, hne⟩
          · exact Or.inr hm
  · intro names i h1 h2
    unfold secondaryAt
    rw [h1, h2]
    simp [unitsDiffer]

/-- C5 witness: a curve whose name has no parsable unit and no derivative
marker is classified primary. -/
theorem secondary_axis_classification_witness :
    secondaryAt ["U (V)".toList, "Tension".toList] 1 = false :=
  secondary_axis_classification.2.2.2 ["U (V)".toList, "Tension".toList] 1
    (by decide) (by decide)

/-- C4 counterexample: on the input t = [0, 3, 6], v = [0, 3, 0] — nonzero
amplitude, one peak, one fallback crossing at time 1 — the source returns an
empty timestamp list, while the claim wording requires the single detected
timestamp to still be reported. -/
theorem period_claim_reporting_counterexample :
    compute_period_from_peaks [0, 3, 6] [0, 3, 0] = (none, none, []) ∧
      periodClaimSpec [0, 3, 6] [0, 3, 0] = (none, none, [1]) ∧
      compute_period_from_peaks [0, 3, 6] [0, 3, 0] ≠
        periodClaimSpec [0, 3, 6] [0, 3, 0] := by
  have h1 : compute_period_from_peaks [0, 3, 6] [0, 3, 0] = (none, none, []) := by
    norm_num [compute_period_from_peaks, listMin, listMax, qmin, qmax, crossingTimes,
      meanQ, List.range_succ]
  have h2 : periodClaimSpec [0, 3, 6] [0, 3, 0] = (none, none, ([1] : List ℚ)) := by
    norm_num [periodClaimSpec, listMin, listMax, qmin, qmax, crossingTimes, meanQ,
      List.range_succ, List.range']
  refine ⟨h1, h2, ?_⟩
  rw [h1, h2]
  simp

/-- C4 amended: period estimation follows the two-stage algorithm of the
claim, with the reporting rule corrected: with fewer than 2 timestamps the
result is undetermined with an empty reported list, and a nonpositive
median difference short-circuits to an undetermined period with the
timestamps reported; survivors of the discard rule give the period mean and
the period variance (the squared standard deviation). -/
theorem compute_period_follows_amended_spec (t v : List ℚ)
    (hlen : t.length = v.length) :
    compute_period_from_peaks t v = periodAmendedSpec t v := by
  have hfilter : ∀ (ds : List ℚ) (m : ℚ),
      ds.filter (fun d => decide (d < 10 * m)) =
        ds.filter (fun d => !decide (10 * m ≤ d)) := by
    intro ds m
    apply List.filter_congr
    intro d _
    by_cases h : d < 10 * m
    · simp [h, not_le.mpr h]
    · simp [h, not_lt.mp h]
  simp only [compute_period_from_peaks, periodAmendedSpec, hfilter]
  by_cases h3 : t.length < 3
  · rw [if_pos h3]
    by_cases hamp : listMax v - listMin v = 0
    · rw [if_pos hamp]
    · rw [if_neg hamp]
      have h20 : v.length - 2 = 0 := by omega
      have hcross : (crossingTimes t v).length < 2 := by
        have h := crossingTimes_length_le t v
        omega
      rw [h20]
      simp only [List.range', List.filter_nil, List.map_nil, List.length_nil,
        Nat.zero_lt_two, if_true]
      rw [if_pos hcross]
  · rw [if_neg h3]

/-- C4 amended witness: the theorem applied at a concrete curve. -/
theorem compute_period_follows_amended_spec_witness :
    ([0, 3, 6] : List ℚ).length = ([0, 3, 0] : List ℚ).length ∧
      compute_period_from_peaks [0, 3, 6] [0, 3, 0] =
        periodAmendedSpec [0, 3, 6] [0, 3, 0] :=
  ⟨by decide, compute_period_follows_amended_spec [0, 3, 6] [0, 3, 0] (by decide)⟩

/-- C6: the derivative of a curve with at least 2 samples has length n-1,
values given by the forward difference quotients at midpoint timestamps, and
is a derived (non-raw) curve; the concrete parabola samples give [1, 3, 5,
7] at times [0.5, 1.5, 2.5, 3.5]. -/
theorem derivative_forward_differences :
    (∀ c : Curve, 2 ≤ c.time.length → c.values.length = c.time.length →
        ∃ d, calculer_derivee c = some d ∧
          d.time.length = c.time.length - 1 ∧
          d.values.length = c.time.length - 1 ∧
          (∀ i, i < c.time.length - 1 →
            d.values.getD i 0 =
              (c.values.getD (i + 1) 0 - c.values.getD i 0) /
                (c.time.getD (i + 1) 0 - c.time.getD i 0) ∧
            d.time.getD i 0 = (c.time.getD i 0 + c.time.getD (i + 1) 0) / 2) ∧
          d.is_raw = false) ∧
      (calculer_derivee ⟨[0, 1, 2, 3, 4], [0, 1, 4, 9, 16], "U (V)".toList, true⟩).map
          (fun d => (d.time, d.values, d.is_raw)) =
        some ([1/2, 3/2, 5/2, 7/2], [1, 3, 5, 7], false) := by
  constructor
  · intro c h2 hlen
    have hne : ¬ c.time.length < 2 := by omega
    refine ⟨{ time := midpoints c.time,
              values := List.zipWith (fun dv dt => dv / dt)
                (diffsQ c.values) (diffsQ c.time),
              name := derivName c.name, is_raw := false }, ?_, ?_, ?_, ?_, rfl⟩
    · unfold calculer_derivee
      rw [if_neg hne]
    · simp only [midpoints, List.length_zipWith, List.length_tail]
      omega
    · simp only [diffsQ, List.length_zipWith, List.length_tail]
      omega
    · intro i hi
      have hiv : i + 1 < c.values.length := by omega
      have hit : i + 1 < c.time.length := by omega
      have hdv : i < (diffsQ c.values).length := by
        simp only [diffsQ, List.length_zipWith, List.length_tail]
        omega
      have hdt : i < (diffsQ c.time).length := by
        simp only [diffsQ, List.length_zipWith, List.length_tail]
        omega
      have hzip : i < (List.zipWith (fun dv dt => dv / dt)
          (diffsQ c.values) (diffsQ c.time)).length := by
        simp only [List.length_zipWith]
        omega
      constructor
      · show (List.zipWith (fun dv dt => dv / dt)
            (diffsQ c.values) (diffsQ c.time)).getD i 0 = _
        rw [List.getD_eq_getElem _ _ hzip, List.getElem_zipWith]
        rw [← List.getD_eq_getElem (diffsQ c.values) 0 hdv,
          ← List.getD_eq_getElem (diffsQ c.time) 0 hdt]
        rw [diffsQ_getD c.values i hiv, diffsQ_getD c.time i hit]
      · exact midpoints_getD c.time i hit
  · norm_num [calculer_derivee, midpoints, diffsQ, List.zipWith]

/-- C6 witness: the theorem applied at the concrete parabola curve. -/
theorem derivative_forward_differences_witness :
    2 ≤ (Curve.mk [0, 1, 2, 3, 4] [0, 1, 4, 9, 16] "U (V)".toList true).time.length ∧
      (∃ d, calculer_derivee
            (Curve.mk [0, 1, 2, 3, 4] [0, 1, 4, 9, 16] "U (V)".toList true) = some d ∧
          d.time.length =
            (Curve.mk [0, 1, 2, 3, 4] [0, 1, 4, 9, 16] "U (V)".toList true).time.length - 1 ∧
          d.values.length =
            (Curve.mk [0, 1, 2, 3, 4] [0, 1, 4, 9, 16] "U (V)".toList true).time.length - 1 ∧
          (∀ i, i <
              (Curve.mk [0, 1, 2, 3, 4] [0, 1, 4, 9, 16] "U (V)".toList true).time.length - 1 →
            d.values.getD i 0 =
              ((Curve.mk [0, 1, 2, 3, 4] [0, 1, 4, 9, 16] "U (V)".toList
                  true).values.getD (i + 1) 0 -
                  (Curve.mk [0, 1, 2, 3, 4] [0, 1, 4, 9, 16] "U (V)".toList
                    true).values.getD i 0) /
                ((Curve.mk [0, 1, 2, 3, 4] [0, 1, 4, 9, 16] "U (V)".toList
                    true).time.getD (i + 1) 0 -
                  (Curve.mk [0, 1, 2, 3, 4] [0, 1, 4, 9, 16] "U (V)".toList
                    true).time.getD i 0) ∧
            d.time.getD i 0 =
              ((Curve.mk [0, 1, 2, 3, 4] [0, 1, 4, 9, 16] "U (V)".toList
                  true).time.getD i 0 +
                (Curve.mk [0, 1, 2, 3, 4] [0, 1, 4, 9, 16] "U (V)".toList
                  true).time.getD (i + 1) 0) / 2) ∧
          d.is_raw = false) :=
  ⟨by decide,
    derivative_forward_differences.1
      (Curve.mk [0, 1, 2, 3, 4] [0, 1, 4, 9, 16] "U (V)".toList true)
      (by decide) (by decide)⟩

/-- C7: the spectrum computation agrees pointwise with the claim
specification: empty output below 2 samples, sort-by-time exactly when the
time samples are not strictly increasing, effective sample rate
1/mean(successive differences), the one-sided frequency ladder k*fe/N, and
amplitudes (2/sum(window)) times the modulus of the one-sided DFT of the
mean-removed, Hann-windowed values. -/
theorem spectrum_follows_spec (t v : List ℝ) :
    compute_fft_for_curve t v = spectrumSpec t v := by
  unfold compute_fft_for_curve spectrumSpec
  by_cases h2 : t.length < 2
  · rw [if_pos h2, if_pos h2]
  · rw [if_neg h2, if_neg h2]
    by_cases hch : List.Chain' (· < ·) t
    · have hany : ((diffsR t).any fun d => decide (d ≤ 0)) = false := by
        by_contra hx
        rw [Bool.not_eq_false] at hx
        exact (any_nonpos_diff_iff t).mp hx hch
      simp only [hany, Bool.false_eq_true, if_false, hch, if_true, freq_ladder]
    · have hany : ((diffsR t).any fun d => decide (d ≤ 0)) = true :=
        (any_nonpos_diff_iff t).mpr hch
      simp only [hany, if_true, hch, if_false, freq_ladder]

end Latis
